import Mathlib

/-!
Verification of the cgar-viewer interaction layer.

This file gives a shallow embedding, in Lean 4, of the orbit-camera
controller (`src/main.rs` `camera_controller`, `src/camera/systems.rs`
`camera_controller`) and of the pointer-picking pipeline
(`src/mesh/edge.rs` `handle_mesh_click`, `clear_edge_highlights`,
`highlight_cgar_edge`), and proves or refutes the specified properties
of those systems.

Modelling conventions:
* `f32` values are modelled as elements of a `LinearOrderedField`
  (instantiated at `ℚ` for executable checks and at `ℝ` where
  transcendental functions are involved); exact arithmetic stands in
  for floating point.
* Engine calls (`look_at`, the math backend `sin`/`cos`/`acos`/
  `atan2`/`sqrt`) are external collaborators and are passed in as
  parameters (`CamOps`, a `lookAt` function).
* The cgar mesh is the external collaborator of the picking pipeline;
  it is modelled by a record exposing exactly the operations the
  viewer calls.
* Fallible operations return `Option`; a Rust index-out-of-bounds
  panic is modelled as `Except.error`.

The file is organised as definitions first, then theorems.
-/

namespace CgarViewer

/-- A 2-component vector, modelling `bevy::math::Vec2` at scalar type `α`. -/
structure V2 (α : Type) where
  x : α
  y : α
deriving Repr, DecidableEq

/-- A 3-component vector, modelling `bevy::math::Vec3` at scalar type `α`. -/
structure V3 (α : Type) where
  x : α
  y : α
  z : α
deriving Repr, DecidableEq

namespace V3

variable {α : Type} [Field α]

instance : Add (V3 α) := ⟨fun a b => ⟨a.x + b.x, a.y + b.y, a.z + b.z⟩⟩
instance : Sub (V3 α) := ⟨fun a b => ⟨a.x - b.x, a.y - b.y, a.z - b.z⟩⟩
instance : Neg (V3 α) := ⟨fun a => ⟨-a.x, -a.y, -a.z⟩⟩
instance : SMul α (V3 α) := ⟨fun c a => ⟨c * a.x, c * a.y, c * a.z⟩⟩
instance : Zero (V3 α) := ⟨⟨0, 0, 0⟩⟩

end V3

namespace V2

variable {α : Type} [Field α]

instance : Add (V2 α) := ⟨fun a b => ⟨a.x + b.x, a.y + b.y⟩⟩
instance : Sub (V2 α) := ⟨fun a b => ⟨a.x - b.x, a.y - b.y⟩⟩
instance : Zero (V2 α) := ⟨⟨0, 0⟩⟩

/-- Squared euclidean length, modelling `Vec2::length_squared`. -/
def length_squared (a : V2 α) : α := a.x * a.x + a.y * a.y

end V2

section CameraDefs

variable {α : Type} [LinearOrderedField α]

/-- Rust `f32::clamp(lo, hi)`: `min (max x lo) hi` (for `lo ≤ hi`, NaN aside). -/
def rclamp (x lo hi : α) : α := min (max x lo) hi

/-- Scroll-wheel zoom block of `camera_controller` (`src/main.rs` lines
268-272): when `scroll.abs() > 0.0`, `radius -= scroll * radius * 0.05`
followed by `radius.clamp(0.1, 20.0)`. -/
def scrollZoom (radius scroll : α) : α :=
  if |scroll| > 0 then
    rclamp (radius - scroll * radius * (5 / 100)) (1 / 10) 20
  else radius

/-- Keyboard zoom-in block (`src/main.rs` lines 275-279): while `Equal`
is held, `radius -= 0.1` followed by `radius.clamp(0.1, 20.0)`. -/
def keyEqualZoom (radius : α) (held : Bool) : α :=
  if held then rclamp (radius - 1 / 10) (1 / 10) 20 else radius

/-- Keyboard zoom-out block (`src/main.rs` lines 280-284): while `Minus`
is held, `radius += 0.1` followed by `radius.clamp(0.1, 20.0)`. -/
def keyMinusZoom (radius : α) (held : Bool) : α :=
  if held then rclamp (radius + 1 / 10) (1 / 10) 20 else radius

/-- Zoom section of `camera_controller` (`src/main.rs` lines 267-284).
The scroll-wheel zoom runs when `|scroll| > 0`; the two keyboard zooms
(`Equal` zooms in, `Minus` zooms out) each run whenever their key is
held — they are separate `if` statements, not `else if`. -/
def zoomStep (radius scroll : α) (keyEqual keyMinus : Bool) : α :=
  keyMinusZoom (keyEqualZoom (scrollZoom radius scroll) keyEqual) keyMinus

/-- Orthographic zoom of the `camera_controller` in
`src/camera/systems.rs` lines 92-104: when `scroll != 0`,
`scale *= 1 - scroll * 0.1` followed by `scale.clamp(0.1, 10.0)`. -/
def orthoZoomStep (scale scroll : α) : α :=
  if scroll ≠ 0 then rclamp (scale * (1 - scroll * (1 / 10))) (1 / 10) 10
  else scale

/-- Orbit-camera state, modelling the `OrbitCamera` component
(`src/main.rs` lines 19-25, `src/camera/components.rs`). -/
structure OrbitState (α : Type) where
  focus : V3 α
  radius : α
  upsideDown : Bool
  lastMousePos : Option (V2 α)

/-- Camera orientation, abstracted to the two basis vectors the
controller reads back (`transform.local_x()` / `transform.local_y()`). -/
structure Basis3 (α : Type) where
  right : V3 α
  up : V3 α

/-- Camera transform: world translation plus orientation basis. -/
structure CamTransform (α : Type) where
  translation : V3 α
  basis : Basis3 α

/-- Math backend used by the controller (`f32::sin`, `cos`, `acos`,
`atan2`, `sqrt` and `std::f32::consts::PI`), passed in as a parameter
so the model stays polymorphic in the scalar type. -/
structure CamOps (α : Type) where
  pi : α
  sin : α → α
  cos : α → α
  arccos : α → α
  atan2 : α → α → α
  sqrt : α → α

/-- One tick's raw input batch: button state, drained mouse-motion
deltas, drained wheel deltas, and the two zoom keys. -/
structure TickInput (α : Type) where
  leftPressed : Bool
  rightPressed : Bool
  motion : List (V2 α)
  wheel : List α
  keyEqual : Bool
  keyMinus : Bool

/-- Motion-event accumulation (`src/main.rs` lines 236-241 resp.
245-250): each event contributes `delta - last_mouse_pos` when a last
sample exists, and `last_mouse_pos` is set to the raw delta after every
event.  Returns the final last-sample and the accumulated move. -/
def accumMotion (last : Option (V2 α)) (acc : V2 α) :
    List (V2 α) → Option (V2 α) × V2 α
  | [] => (last, acc)
  | d :: rest =>
    match last with
    | some lp => accumMotion (some d) (acc + (d - lp)) rest
    | none => accumMotion (some d) acc rest

/-- The clamped polar angle computed by the rotation block
(`src/main.rs` lines 295-302): `phi = acos(offset.y / radius)`, then
`phi -= dy`, then `phi.clamp(0.01, PI - 0.01)`. -/
def rotationPhi (ops : CamOps α) (offsetY radius dy : α) : α :=
  rclamp (ops.arccos (offsetY / radius) - dy) (1 / 100) (ops.pi - 1 / 100)

/-- Rotation block of `camera_controller` (`src/main.rs` lines 286-315).
Returns the updated transform and whether it ran. -/
def rotationStep (ops : CamOps α) (lookAt : V3 α → V3 α → Basis3 α)
    (t : CamTransform α) (orbit : OrbitState α) (rotationMove : V2 α) :
    CamTransform α × Bool :=
  if rotationMove.length_squared > 0 then
    let sensitivity : α := 5 / 1000
    let dx := rotationMove.x * sensitivity
    let dy := rotationMove.y * sensitivity
    let offset := t.translation - orbit.focus
    let theta := ops.atan2 offset.z offset.x + dx
    let phi := rotationPhi ops offset.y orbit.radius dy
    let newPosition : V3 α :=
      ⟨orbit.radius * ops.sin phi * ops.cos theta,
       orbit.radius * ops.cos phi,
       orbit.radius * ops.sin phi * ops.sin theta⟩
    let translation := orbit.focus + newPosition
    (⟨translation, lookAt translation orbit.focus⟩, true)
  else (t, false)

/-- Position/focus arithmetic of the pan block (`src/main.rs` lines
329-334): `focus += pan_offset`; then
`offset = translation - (focus - pan_offset)` and
`translation = focus + offset`.  Returns the new translation and the
new focus. -/
def panApply (translation focus panOffset : V3 α) : V3 α × V3 α :=
  let focus2 := focus + panOffset
  let offset := translation - (focus2 - panOffset)
  (focus2 + offset, focus2)

/-- Pan block of `camera_controller` (`src/main.rs` lines 317-338).
Returns the updated transform, updated orbit state, and whether it
ran. -/
def panStep (lookAt : V3 α → V3 α → Basis3 α)
    (t : CamTransform α) (orbit : OrbitState α) (panMove : V2 α) :
    CamTransform α × OrbitState α × Bool :=
  if panMove.length_squared > 0 then
    let panSensitivity : α := 1 / 1000
    let panOffset : V3 α :=
      orbit.radius • (panSensitivity •
        (panMove.x • (-t.basis.right) + panMove.y • t.basis.up))
    let p := panApply t.translation orbit.focus panOffset
    (⟨p.1, lookAt p.1 p.2⟩, { orbit with focus := p.2 }, true)
  else (t, orbit, false)

/-- Length of a `Vec3` under the supplied square root. -/
def norm3With (sqrt : α → α) (v : V3 α) : α :=
  sqrt (v.x * v.x + v.y * v.y + v.z * v.z)

/-- `Vec3::normalize`: the vector scaled by the reciprocal of its
length. -/
def normalizeWith (sqrt : α → α) (v : V3 α) : V3 α :=
  (1 / norm3With sqrt v) • v

/-- Radius re-normalization block (`src/main.rs` lines 340-346): when
any step changed camera state,
`translation = focus + (translation - focus).normalize() * radius`. -/
def renormTranslation (sqrt : α → α) (translation focus : V3 α)
    (radius : α) : V3 α :=
  focus + radius • normalizeWith sqrt (translation - focus)

/-- Input-classification section of `camera_controller` (`src/main.rs`
lines 235-261): left button accumulates into `rotation_move`, right
button into `pan_move`, neither resets `last_mouse_pos`; motion events
are always drained.  Returns
`(rotation_move, pan_move, last_mouse_pos)`. -/
def tickAccum (inp : TickInput α) (last : Option (V2 α)) :
    V2 α × V2 α × Option (V2 α) :=
  if inp.leftPressed then
    let p := accumMotion last 0 inp.motion
    (p.2, 0, p.1)
  else if inp.rightPressed then
    let p := accumMotion last 0 inp.motion
    (0, p.2, p.1)
  else (0, 0, none)

/-- One full tick of `camera_controller` (`src/main.rs` lines 219-347):
input accumulation, zoom, rotation, pan, and conditional radius
re-normalization, in the source's order. -/
def cameraTick (ops : CamOps α) (lookAt : V3 α → V3 α → Basis3 α)
    (inp : TickInput α) (t : CamTransform α) (orbit : OrbitState α) :
    CamTransform α × OrbitState α :=
  let acc := tickAccum inp orbit.lastMousePos
  let rotationMove := acc.1
  let panMove := acc.2.1
  let orbit1 := { orbit with lastMousePos := acc.2.2 }
  let scroll := inp.wheel.foldl (· + ·) 0
  let orbit2 := { orbit1 with
    radius := zoomStep orbit1.radius scroll inp.keyEqual inp.keyMinus }
  let changedZoom : Bool :=
    decide (|scroll| > 0) || inp.keyEqual || inp.keyMinus
  let r := rotationStep ops lookAt t orbit2 rotationMove
  let p := panStep lookAt r.1 orbit2 panMove
  let changed := changedZoom || r.2 || p.2.2
  let t2 := p.1
  let orbit3 := p.2.1
  if changed then
    let translation :=
      renormTranslation ops.sqrt t2.translation orbit3.focus orbit3.radius
    (⟨translation, lookAt translation orbit3.focus⟩, orbit3)
  else (t2, orbit3)

/-- Fold a list of tick inputs through `cameraTick`. -/
def runTicks (ops : CamOps α) (lookAt : V3 α → V3 α → Basis3 α)
    (inps : List (TickInput α)) (st : CamTransform α × OrbitState α) :
    CamTransform α × OrbitState α :=
  inps.foldl (fun s i => cameraTick ops lookAt i s.1 s.2) st

/-- Fold a list of per-tick scroll amounts through the orthographic
zoom of `src/camera/systems.rs`. -/
def runOrthoTicks (scrolls : List α) (scale : α) : α :=
  scrolls.foldl orthoZoomStep scale

end CameraDefs

/-- The intended real-number math backend: `f32` transcendental
functions read as their exact real counterparts. -/
noncomputable def realCamOps : CamOps ℝ where
  pi := Real.pi
  sin := Real.sin
  cos := Real.cos
  arccos := Real.arccos
  atan2 := fun z x => Complex.arg ⟨x, z⟩
  sqrt := Real.sqrt

/-- A rational math backend used to exercise the (backend-polymorphic)
controller on concrete inputs. -/
def ratCamOps : CamOps ℚ where
  pi := 314159 / 100000
  sin := fun x => x
  cos := fun x => x
  arccos := fun x => x
  atan2 := fun _ _ => 0
  sqrt := fun x => x

/-- A fixed orientation recomputation used to exercise the controller
on concrete inputs (`look_at` itself is engine code, external to the
repository). -/
def ratLookAt : V3 ℚ → V3 ℚ → Basis3 ℚ :=
  fun _ _ => ⟨⟨1, 0, 0⟩, ⟨0, 1, 0⟩⟩

/-- A concrete camera transform matching the spawn transform of
`setup_camera_light` (`src/main.rs` line 59). -/
def ratCamTransform : CamTransform ℚ :=
  ⟨⟨5 / 2, 2, 5⟩, ⟨⟨1, 0, 0⟩, ⟨0, 1, 0⟩⟩⟩

/-- The orbit state at camera spawn (`src/main.rs` lines 61-66):
focus at the origin, radius 5. -/
def ratOrbitInit : OrbitState ℚ :=
  ⟨⟨0, 0, 0⟩, 5, false, none⟩

/-! ### Picking pipeline (`src/mesh/edge.rs`) -/

/-- Entity ids, modelling `bevy::ecs::entity::Entity`. -/
abbrev Entity := Nat

/-- Pointer ids, modelling `bevy::picking::pointer::PointerId`. -/
abbrev PointerId := Nat

/-- A half-edge record with the fields the viewer reads from cgar
half-edges: `he.vertex` and `he.next`. -/
structure HalfEdgeRec where
  vertex : Nat
  next : Nat
deriving Repr, DecidableEq

/-- The cgar mesh collaborator, modelled by exactly the operations
`handle_mesh_click` and `highlight_cgar_edge` call on it: the vertex
position list, the half-edge list, `face_half_edges`, and
`edge_half_edges` (the half-edge index of the edge between two
vertices, when such an edge exists). -/
structure CgarMesh3 where
  vertices : List (V3 ℚ)
  half_edges : List HalfEdgeRec
  face_half_edges : Nat → List Nat
  edge_half_edges : Nat → Nat → Option Nat

/-- A pointer press event (`Pointer<Pressed>`): pointer id, screen
position, target entity. -/
structure PressEvent where
  pointer_id : PointerId
  position : V2 ℚ
  target : Entity

/-- A pointer release event (`Pointer<Released>`). -/
structure ReleaseEvent where
  pointer_id : PointerId
  position : V2 ℚ
  target : Entity

/-- `HashMap::insert` on an association list: overwrites any existing
entry for the key, so each key has at most one entry. -/
def mapInsert {β : Type} (k : PointerId) (v : β)
    (m : List (PointerId × β)) : List (PointerId × β) :=
  (k, v) :: m.filter (fun e => e.1 != k)

/-- `HashMap::remove` on an association list. -/
def mapRemove {β : Type} (k : PointerId)
    (m : List (PointerId × β)) : List (PointerId × β) :=
  m.filter (fun e => e.1 != k)

/-- The `PointerPresses` resource (`src/mesh/edge.rs` lines 68-72):
per-pointer press position and press target. -/
structure PointerPresses where
  pos : List (PointerId × V2 ℚ)
  target : List (PointerId × Entity)

/-- World state touched by the picking system: the press bookkeeping,
the `HighlightedEdges.cylinders` list, the next entity id `Commands`
would allocate, and the list of entities despawned so far (recorded to
state lifecycle properties). -/
structure PickerState where
  presses : PointerPresses
  cylinders : List Entity
  nextId : Entity
  despawned : List Entity

/-- Result classification of `cgar_mesh.cast_ray`: edge hit (with the
parametric position along the edge), face hit, or another hit kind
(matched by the source's catch-all arm), or a miss. -/
inductive HitKind where
  | Edge (v0 v1 : Nat) (u : ℚ)
  | Face (face_id : Nat) (point : V3 ℚ)
  | Vertex (v : Nat)
deriving Repr, DecidableEq

/-- `IntersectionResult` returned by the cast-ray collaborator. -/
inductive CastResult where
  | Hit (hit : HitKind) (distance : ℚ)
  | Miss
deriving Repr, DecidableEq

/-- The per-click environment `handle_mesh_click` queries: the mesh
component lookup by target entity, the singleton camera and
primary-window lookups, the success of `viewport_to_world`, and the
collaborator's cast-ray answer for the click's ray.  The
logical-to-physical pixel conversion and viewport offset only select
which ray is cast, so they are absorbed into `cast`. -/
structure ClickEnv where
  mesh : Entity → Option CgarMesh3
  cameraOk : Bool
  windowOk : Bool
  rayOk : Bool
  cast : CastResult

/-- The click deadzone (`src/mesh/edge.rs` line 93). -/
def click_deadzone : ℚ := 3

/-- Squared deadzone (`src/mesh/edge.rs` line 94). -/
def deadzone_sq : ℚ := click_deadzone * click_deadzone

/-- Press-event bookkeeping (`src/mesh/edge.rs` lines 86-91): record
position and target for the pointer id, overwriting prior entries. -/
def handlePress (st : PickerState) (ev : PressEvent) : PickerState :=
  { st with presses :=
      { pos := mapInsert ev.pointer_id ev.position st.presses.pos,
        target := mapInsert ev.pointer_id ev.target st.presses.target } }

/-- `clear_edge_highlights` (`src/mesh/edge.rs` lines 533-540): despawn
every entity in `cylinders` and drain the list. -/
def clear_edge_highlights (st : PickerState) : PickerState :=
  { st with cylinders := [], despawned := st.despawned ++ st.cylinders }

/-- `create_edge_cylinder` (`src/mesh/edge.rs` lines 586-637): spawns
one cylinder entity and returns its id.  The spawned render components
(mesh asset, material, transform, `NoWireframe` marker) are render
data owned by the engine and are not modelled; the claims under
verification concern only the entity lifecycle. -/
def create_edge_cylinder (st : PickerState) : Entity × PickerState :=
  (st.nextId, { st with nextId := st.nextId + 1 })

/-- `highlight_cgar_edge` (`src/mesh/edge.rs` lines 542-584): when
`edge_half_edges(v0, v1)` finds the edge, read both vertex positions
(a Rust index panic — modelled as `Except.error` — if either index is
out of bounds), spawn one cylinder and push it onto `cylinders`;
otherwise do nothing. -/
def highlight_cgar_edge (m : CgarMesh3) (ev0 ev1 : Nat)
    (st : PickerState) : Except Unit PickerState :=
  match m.edge_half_edges ev0 ev1 with
  | some _ =>
    match m.vertices[ev0]?, m.vertices[ev1]? with
    | some _, some _ =>
      let c := create_edge_cylinder st
      Except.ok { c.2 with cylinders := c.2.cylinders ++ [c.1] }
    | _, _ => Except.error ()
  | none => Except.ok st

/-- The face-hit arm (`src/mesh/edge.rs` lines 185-202): for each
half-edge index of the face, if `half_edges.get` finds it, read the
edge's two vertices (`half_edges[he.next]` is an unchecked index — a
panic if out of bounds) and highlight that edge; indices that
`half_edges.get` does not find are skipped. -/
def highlightFaceEdges (m : CgarMesh3) (idxs : List Nat)
    (st : PickerState) : Except Unit PickerState :=
  match idxs with
  | [] => Except.ok st
  | idx :: rest =>
    match m.half_edges[idx]? with
    | some he =>
      match m.half_edges[he.next]? with
      | some he2 =>
        match highlight_cgar_edge m he.vertex he2.vertex st with
        | Except.ok st2 => highlightFaceEdges m rest st2
        | Except.error e => Except.error e
      | none => Except.error ()
    | none => highlightFaceEdges m rest st

/-- Interpretation of the cast result (`src/mesh/edge.rs` lines
166-208): an edge hit highlights that edge, a face hit highlights each
boundary edge, any other hit kind and a miss do nothing. -/
def resolveHit (m : CgarMesh3) (cast : CastResult)
    (st : PickerState) : Except Unit PickerState :=
  match cast with
  | CastResult.Hit hit _ =>
    match hit with
    | HitKind.Edge v0 v1 _ => highlight_cgar_edge m v0 v1 st
    | HitKind.Face face_id _ =>
      highlightFaceEdges m (m.face_half_edges face_id) st
    | HitKind.Vertex _ => Except.ok st
  | CastResult.Miss => Except.ok st

/-- Release-event processing (`src/mesh/edge.rs` lines 96-212): pop
the press record (skip when absent), remove the press target, classify
click versus drag by squared distance and the (already-removed) target
comparison, and on a click against a mesh-carrying target clear the
highlights and — when camera, window, and ray are all available —
resolve the cast result. -/
def handleRelease (env : ClickEnv) (st : PickerState)
    (ev : ReleaseEvent) : Except Unit PickerState :=
  match List.lookup ev.pointer_id st.presses.pos with
  | none => Except.ok st
  | some start_pos =>
    let presses1 : PointerPresses :=
      { pos := mapRemove ev.pointer_id st.presses.pos,
        target := mapRemove ev.pointer_id st.presses.target }
    let st1 := { st with presses := presses1 }
    let moved_sq := (ev.position - start_pos).length_squared
    let same_target : Bool :=
      ((List.lookup ev.pointer_id presses1.target).map
        (fun t => t == ev.target)).getD true
    if decide (moved_sq > deadzone_sq) || !same_target then
      Except.ok st1
    else
      match env.mesh ev.target with
      | none => Except.ok st1
      | some m =>
        let st2 := clear_edge_highlights st1
        if env.cameraOk && env.windowOk then
          if env.rayOk then resolveHit m env.cast st2
          else Except.ok st2
        else Except.ok st2

/-- The whole `handle_mesh_click` system body: record every press
event, then process every release event in order. -/
def handle_mesh_click (env : ClickEnv) (pressEvents : List PressEvent)
    (releaseEvents : List ReleaseEvent) (st : PickerState) :
    Except Unit PickerState :=
  releaseEvents.foldlM (handleRelease env) (pressEvents.foldl handlePress st)

/-- Decidable well-formedness of one face half-edge index: it resolves
to a half-edge whose `next` also resolves, the corresponding
vertex-pair edge lookup succeeds, and both vertex indices are in
bounds.  Under this condition the face arm produces exactly one
highlight for the index. -/
def faceEdgeResolvable (m : CgarMesh3) (idx : Nat) : Bool :=
  match m.half_edges[idx]? with
  | none => false
  | some he =>
    match m.half_edges[he.next]? with
    | none => false
    | some he2 =>
      (m.edge_half_edges he.vertex he2.vertex).isSome &&
        (m.vertices[he.vertex]?).isSome && (m.vertices[he2.vertex]?).isSome

/-! ### Concrete fixtures for witnesses and counterexamples -/

/-- A single-triangle mesh: three vertices, three half-edges in a
cycle, one face, and an edge lookup that knows the three directed
boundary edges. -/
def triMesh : CgarMesh3 where
  vertices := [⟨0, 0, 0⟩, ⟨1, 0, 0⟩, ⟨0, 1, 0⟩]
  half_edges := [⟨0, 1⟩, ⟨1, 2⟩, ⟨2, 0⟩]
  face_half_edges := fun f => if f == 0 then [0, 1, 2] else []
  edge_half_edges := fun a b =>
    if a == 0 && b == 1 then some 0
    else if a == 1 && b == 2 then some 1
    else if a == 2 && b == 0 then some 2
    else none

/-- The triangle mesh with a broken edge index: every
`edge_half_edges` lookup fails. -/
def brokenMesh : CgarMesh3 where
  vertices := [⟨0, 0, 0⟩, ⟨1, 0, 0⟩, ⟨0, 1, 0⟩]
  half_edges := [⟨0, 1⟩, ⟨1, 2⟩, ⟨2, 0⟩]
  face_half_edges := fun f => if f == 0 then [0, 1, 2] else []
  edge_half_edges := fun _ _ => none

/-- A mesh-component lookup that finds `triMesh` on entity 7 only. -/
def meshAt7 : Entity → Option CgarMesh3 :=
  fun t => if t == 7 then some triMesh else none

/-- Environment whose ray misses the mesh. -/
def envMiss : ClickEnv := ⟨meshAt7, true, true, true, CastResult.Miss⟩

/-- Environment whose ray hits face 0. -/
def envFace : ClickEnv :=
  ⟨meshAt7, true, true, true, CastResult.Hit (HitKind.Face 0 ⟨0, 0, 0⟩) 1⟩

/-- Environment whose ray hits the edge `(0, 1)` at parameter 1/4. -/
def envEdge : ClickEnv :=
  ⟨meshAt7, true, true, true, CastResult.Hit (HitKind.Edge 0 1 (1 / 4)) 1⟩

/-- A picker state holding one stale highlight entity, id 99, with
fresh ids starting at 100. -/
def stWithHighlight : PickerState := ⟨⟨[], []⟩, [99], 100, []⟩

/-- The stale-highlight state with an outstanding press record for
pointer 0 at the origin on entity 5. -/
def stPressed : PickerState := ⟨⟨[(0, ⟨0, 0⟩)], [(0, 5)]⟩, [99], 100, []⟩

/-- The state after resolving a Miss click from `stPressed`: press
records consumed, highlight 99 despawned, no new highlights. -/
def stMissResult : PickerState := ⟨⟨[], []⟩, [], 100, [99]⟩

/-- The state after resolving a face-0 click on `triMesh` from
`stPressed`: three fresh highlights. -/
def stFaceResult : PickerState := ⟨⟨[], []⟩, [100, 101, 102], 103, [99]⟩

/-! ### Edit dispatch, modelled from the spec -/

/-- An action the picker submits for a resolved edge hit:
`collapse removed survivor` collapses vertex `removed` onto vertex
`survivor` (the removed vertex disappears), `highlight` spawns the
edge highlight. -/
inductive EditAction where
  | collapse (removed survivor : Nat)
  | highlight (v0 v1 : Nat)
deriving Repr, DecidableEq

/-- Modelled from the spec: the edit-toggle flag and the edge-collapse
dispatch appear in the specification ("when the edit-toggle flag is
armed and the hit is an edge ... given a hit parameter u < 0.5, the
edit dispatch must collapse vertex v1 onto v0 ... verify with u=0.2
and u=0.8 producing opposite collapse directions") but no such code
exists under `src/` — the edge-hit arm of `handle_mesh_click` only
highlights.  This definition follows the spec's words: armed and
`u < 0.5` collapses `v1` onto `v0`, armed and `u ≥ 0.5` collapses `v0`
onto `v1`, unarmed highlights. -/
def editDispatch (armed : Bool) (v0 v1 : Nat) (u : ℚ) : EditAction :=
  if armed then
    if u < 1 / 2 then EditAction.collapse v1 v0
    else EditAction.collapse v0 v1
  else EditAction.highlight v0 v1

/-! ## Theorems -/

theorem V3.eq_iff {α : Type} (a b : V3 α) :
    a = b ↔ a.x = b.x ∧ a.y = b.y ∧ a.z = b.z := by
  cases a
  cases b
  simp [V3.mk.injEq]

section VecLemmas

variable {α : Type} [Field α]

@[simp] theorem V3.add_def (a b : V3 α) :
    a + b = ⟨a.x + b.x, a.y + b.y, a.z + b.z⟩ := rfl

@[simp] theorem V3.sub_def (a b : V3 α) :
    a - b = ⟨a.x - b.x, a.y - b.y, a.z - b.z⟩ := rfl

@[simp] theorem V3.neg_def (a : V3 α) : -a = ⟨-a.x, -a.y, -a.z⟩ := rfl

@[simp] theorem V3.smul_def (c : α) (a : V3 α) :
    c • a = ⟨c * a.x, c * a.y, c * a.z⟩ := rfl

@[simp] theorem V3.zero_def : (0 : V3 α) = ⟨0, 0, 0⟩ := rfl

@[simp] theorem V2.add_pair (a b : V2 α) : a + b = ⟨a.x + b.x, a.y + b.y⟩ := rfl

@[simp] theorem V2.sub_pair (a b : V2 α) : a - b = ⟨a.x - b.x, a.y - b.y⟩ := rfl

@[simp] theorem V2.zero_pair : (0 : V2 α) = ⟨0, 0⟩ := rfl

end VecLemmas

section ClampLemmas

variable {α : Type} [LinearOrderedField α]

theorem rclamp_mem (x lo hi : α) (h : lo ≤ hi) :
    lo ≤ rclamp x lo hi ∧ rclamp x lo hi ≤ hi := by
  constructor
  · exact le_min (le_max_right x lo) h
  · exact min_le_right _ _

theorem rclamp_le (x lo hi : α) : rclamp x lo hi ≤ hi := min_le_right _ _

theorem le_rclamp (x lo hi : α) (h : lo ≤ hi) : lo ≤ rclamp x lo hi :=
  le_min (le_max_right x lo) h

theorem one_tenth_le_twenty : (1 / 10 : α) ≤ 20 := by
  rw [div_le_iff₀ (by positivity)]
  norm_num

theorem one_tenth_le_ten : (1 / 10 : α) ≤ 10 := by
  rw [div_le_iff₀ (by positivity)]
  norm_num

end ClampLemmas

section ZoomLemmas

variable {α : Type} [LinearOrderedField α]

theorem scrollZoom_mem (radius scroll : α)
    (h : 1 / 10 ≤ radius ∧ radius ≤ 20) :
    1 / 10 ≤ scrollZoom radius scroll ∧ scrollZoom radius scroll ≤ 20 := by
  unfold scrollZoom
  split
  · exact rclamp_mem _ _ _ one_tenth_le_twenty
  · exact h

theorem keyEqualZoom_mem (radius : α) (held : Bool)
    (h : 1 / 10 ≤ radius ∧ radius ≤ 20) :
    1 / 10 ≤ keyEqualZoom radius held ∧ keyEqualZoom radius held ≤ 20 := by
  unfold keyEqualZoom
  split
  · exact rclamp_mem _ _ _ one_tenth_le_twenty
  · exact h

theorem keyMinusZoom_mem (radius : α) (held : Bool)
    (h : 1 / 10 ≤ radius ∧ radius ≤ 20) :
    1 / 10 ≤ keyMinusZoom radius held ∧ keyMinusZoom radius held ≤ 20 := by
  unfold keyMinusZoom
  split
  · exact rclamp_mem _ _ _ one_tenth_le_twenty
  · exact h

theorem zoomStep_mem (radius scroll : α) (keyEqual keyMinus : Bool)
    (h : 1 / 10 ≤ radius ∧ radius ≤ 20) :
    1 / 10 ≤ zoomStep radius scroll keyEqual keyMinus ∧
      zoomStep radius scroll keyEqual keyMinus ≤ 20 :=
  keyMinusZoom_mem _ _ (keyEqualZoom_mem _ _ (scrollZoom_mem _ _ h))

/-- If any zoom input is present this tick, the radius ends clamped into
the range regardless of its starting value: every mutation of `radius`
is immediately followed by `clamp(0.1, 20.0)`. -/
theorem zoomStep_mem_of_input (radius scroll : α) (keyEqual keyMinus : Bool)
    (h : scroll ≠ 0 ∨ keyEqual = true ∨ keyMinus = true) :
    1 / 10 ≤ zoomStep radius scroll keyEqual keyMinus ∧
      zoomStep radius scroll keyEqual keyMinus ≤ 20 := by
  rcases h with h | h | h
  · have habs : |scroll| > 0 := abs_pos.mpr h
    have h1 := rclamp_mem (radius - scroll * radius * (5 / 100)) (1 / 10 : α) 20
      one_tenth_le_twenty
    have hs : scrollZoom radius scroll =
        rclamp (radius - scroll * radius * (5 / 100)) (1 / 10) 20 := by
      unfold scrollZoom
      rw [if_pos habs]
    unfold zoomStep
    rw [hs]
    exact keyMinusZoom_mem _ _ (keyEqualZoom_mem _ _ h1)
  · have h1 : 1 / 10 ≤ keyEqualZoom (scrollZoom radius scroll) keyEqual ∧
        keyEqualZoom (scrollZoom radius scroll) keyEqual ≤ 20 := by
      unfold keyEqualZoom
      rw [if_pos h]
      exact rclamp_mem _ _ _ one_tenth_le_twenty
    exact keyMinusZoom_mem _ _ h1
  · unfold zoomStep keyMinusZoom
    rw [if_pos h]
    exact rclamp_mem _ _ _ one_tenth_le_twenty

theorem orthoZoomStep_mem (scale scroll : α)
    (h : 1 / 10 ≤ scale ∧ scale ≤ 10) :
    1 / 10 ≤ orthoZoomStep scale scroll ∧ orthoZoomStep scale scroll ≤ 10 := by
  unfold orthoZoomStep
  split
  · exact rclamp_mem _ _ _ one_tenth_le_ten
  · exact h

theorem panStep_radius_unchanged (lookAt : V3 α → V3 α → Basis3 α)
    (t : CamTransform α) (orbit : OrbitState α) (m : V2 α) :
    (panStep lookAt t orbit m).2.1.radius = orbit.radius := by
  unfold panStep
  split <;> rfl

/-- The orbit radius produced by a full tick is exactly the zoom
section's output: rotation, pan and re-normalization never write
`radius`. -/
theorem cameraTick_radius (ops : CamOps α)
    (lookAt : V3 α → V3 α → Basis3 α) (inp : TickInput α)
    (t : CamTransform α) (orbit : OrbitState α) :
    (cameraTick ops lookAt inp t orbit).2.radius =
      zoomStep orbit.radius (inp.wheel.foldl (· + ·) 0)
        inp.keyEqual inp.keyMinus := by
  unfold cameraTick
  simp only
  split <;> rw [panStep_radius_unchanged]

theorem runTicks_radius_mem (ops : CamOps α)
    (lookAt : V3 α → V3 α → Basis3 α) (inps : List (TickInput α)) :
    ∀ t orbit, 1 / 10 ≤ orbit.radius ∧ orbit.radius ≤ 20 →
      1 / 10 ≤ (runTicks ops lookAt inps (t, orbit)).2.radius ∧
        (runTicks ops lookAt inps (t, orbit)).2.radius ≤ 20 := by
  induction inps with
  | nil => intro t orbit h; exact h
  | cons i rest ih =>
    intro t orbit h
    have hstep := (cameraTick_radius ops lookAt i t orbit) ▸
      zoomStep_mem orbit.radius (i.wheel.foldl (· + ·) 0) i.keyEqual i.keyMinus h
    have : runTicks ops lookAt (i :: rest) (t, orbit) =
        runTicks ops lookAt rest (cameraTick ops lookAt i t orbit) := rfl
    rw [this]
    have hpair : cameraTick ops lookAt i t orbit =
        ((cameraTick ops lookAt i t orbit).1,
          (cameraTick ops lookAt i t orbit).2) := rfl
    rw [hpair]
    exact ih _ _ hstep

theorem runOrthoTicks_mem (scrolls : List α) :
    ∀ scale, 1 / 10 ≤ scale ∧ scale ≤ 10 →
      1 / 10 ≤ runOrthoTicks scrolls scale ∧
        runOrthoTicks scrolls scale ≤ 10 := by
  induction scrolls with
  | nil => intro s h; exact h
  | cons a rest ih =>
    intro s h
    exact ih _ (orthoZoomStep_mem s a h)

end ZoomLemmas

section RealNormLemmas

theorem norm3With_real_smul (c : ℝ) (v : V3 ℝ) :
    norm3With Real.sqrt (c • v) = |c| * norm3With Real.sqrt v := by
  unfold norm3With
  simp only [V3.smul_def]
  have h : c * v.x * (c * v.x) + c * v.y * (c * v.y) + c * v.z * (c * v.z) =
      c * c * (v.x * v.x + v.y * v.y + v.z * v.z) := by ring
  rw [h, Real.sqrt_mul (mul_self_nonneg c), Real.sqrt_mul_self_eq_abs]

theorem norm3With_real_pos (v : V3 ℝ) (h : v ≠ 0) :
    0 < norm3With Real.sqrt v := by
  unfold norm3With
  apply Real.sqrt_pos.mpr
  rcases v with ⟨x, y, z⟩
  have h2 : ¬(x = 0 ∧ y = 0 ∧ z = 0) := by
    simpa [V3.zero_def, V3.mk.injEq] using h
  by_contra hle
  push_neg at hle
  have hs : x * x + y * y + z * z ≤ 0 := hle
  have hx : x = 0 := by
    have := le_antisymm
      (by nlinarith [mul_self_nonneg y, mul_self_nonneg z])
      (mul_self_nonneg x)
    exact (mul_self_eq_zero).mp this
  have hy : y = 0 := by
    have := le_antisymm
      (by nlinarith [mul_self_nonneg x, mul_self_nonneg z])
      (mul_self_nonneg y)
    exact (mul_self_eq_zero).mp this
  have hz : z = 0 := by
    have := le_antisymm
      (by nlinarith [mul_self_nonneg x, mul_self_nonneg y])
      (mul_self_nonneg z)
    exact (mul_self_eq_zero).mp this
  exact h2 ⟨hx, hy, hz⟩

theorem v3_sub_ne_zero {t f : V3 ℝ} (h : t ≠ f) : t - f ≠ (0 : V3 ℝ) := by
  intro h0
  apply h
  have h1 : t.x - f.x = 0 ∧ t.y - f.y = 0 ∧ t.z - f.z = 0 := by
    simpa [V3.sub_def, V3.zero_def, V3.mk.injEq] using h0
  exact (V3.eq_iff t f).mpr
    ⟨sub_eq_zero.mp h1.1, sub_eq_zero.mp h1.2.1, sub_eq_zero.mp h1.2.2⟩

theorem v3_add_sub_cancel (a b : V3 ℝ) : (a + b) - a = b := by
  rw [V3.eq_iff]
  refine ⟨?_, ?_, ?_⟩ <;> simp

theorem norm3With_real_normalize (v : V3 ℝ) (h : v ≠ 0) :
    norm3With Real.sqrt (normalizeWith Real.sqrt v) = 1 := by
  have hpos := norm3With_real_pos v h
  unfold normalizeWith
  rw [norm3With_real_smul]
  rw [abs_of_pos (by positivity)]
  field_simp

end RealNormLemmas

section PickerLemmas

theorem lookup_mapRemove {β : Type} (k : PointerId)
    (m : List (PointerId × β)) : List.lookup k (mapRemove k m) = none := by
  induction m with
  | nil => rfl
  | cons e rest ih =>
    obtain ⟨e1, e2⟩ := e
    unfold mapRemove at ih ⊢
    by_cases h : e1 = k
    · simp [List.filter_cons, h, ih]
    · have hne : (e1 != k) = true := bne_iff_ne.mpr h
      have hkb : (k == e1) = false := beq_eq_false_iff_ne.mpr (Ne.symm h)
      simp [List.filter_cons, hne, List.lookup, hkb, ih]

theorem highlight_cgar_edge_none (m : CgarMesh3) (v0 v1 : Nat)
    (st : PickerState) (h : m.edge_half_edges v0 v1 = none) :
    highlight_cgar_edge m v0 v1 st = Except.ok st := by
  simp [highlight_cgar_edge, h]

theorem highlight_cgar_edge_some (m : CgarMesh3) (v0 v1 : Nat)
    (st : PickerState) (he : Nat) (h : m.edge_half_edges v0 v1 = some he)
    (h0 : (m.vertices[v0]?).isSome) (h1 : (m.vertices[v1]?).isSome) :
    highlight_cgar_edge m v0 v1 st =
      Except.ok ⟨st.presses, st.cylinders ++ [st.nextId], st.nextId + 1,
        st.despawned⟩ := by
  rcases Option.isSome_iff_exists.mp h0 with ⟨a, ha⟩
  rcases Option.isSome_iff_exists.mp h1 with ⟨b, hb⟩
  simp [highlight_cgar_edge, create_edge_cylinder, h, ha, hb]

/-- Everything an `ok` result of `highlight_cgar_edge` preserves or
bounds: press state and despawn list are untouched, the id counter
never decreases, every highlight in the result is either an old one or
freshly allocated, and at most one highlight is appended. -/
theorem highlight_cgar_edge_inv (m : CgarMesh3) (v0 v1 : Nat)
    (st st2 : PickerState)
    (h : highlight_cgar_edge m v0 v1 st = Except.ok st2) :
    st2.presses = st.presses ∧ st2.despawned = st.despawned ∧
      st.nextId ≤ st2.nextId ∧
      (∀ e ∈ st2.cylinders, e ∈ st.cylinders ∨ st.nextId ≤ e) ∧
      st2.cylinders.length ≤ st.cylinders.length + 1 := by
  unfold highlight_cgar_edge create_edge_cylinder at h
  rcases hedge : m.edge_half_edges v0 v1 with _ | he <;>
    simp only [hedge] at h
  · simp only [Except.ok.injEq] at h
    subst h
    exact ⟨rfl, rfl, le_refl _, fun e he2 => Or.inl he2, Nat.le_succ _⟩
  · rcases hv0 : m.vertices[v0]? with _ | a <;> simp only [hv0] at h
    · simp at h
    · rcases hv1 : m.vertices[v1]? with _ | b <;> simp only [hv1] at h
      · simp at h
      · simp only [Except.ok.injEq] at h
        subst h
        refine ⟨rfl, rfl, Nat.le_succ _, ?_, ?_⟩
        · intro e he2
          rcases List.mem_append.mp he2 with h' | h'
          · exact Or.inl h'
          · simp only [List.mem_singleton] at h'
            exact Or.inr (le_of_eq h'.symm)
        · simp

/-- An `ok` result of the face arm: press state and despawn list
untouched, id counter monotone, every highlight old or fresh, and at
most one highlight added per half-edge index. -/
theorem highlightFaceEdges_inv (m : CgarMesh3) (idxs : List Nat) :
    ∀ st st2, highlightFaceEdges m idxs st = Except.ok st2 →
      st2.presses = st.presses ∧ st2.despawned = st.despawned ∧
        st.nextId ≤ st2.nextId ∧
        (∀ e ∈ st2.cylinders, e ∈ st.cylinders ∨ st.nextId ≤ e) ∧
        st2.cylinders.length ≤ st.cylinders.length + idxs.length := by
  induction idxs with
  | nil =>
    intro st st2 h
    simp only [highlightFaceEdges, Except.ok.injEq] at h
    subst h
    exact ⟨rfl, rfl, le_refl _, fun e he2 => Or.inl he2, by simp⟩
  | cons idx rest ih =>
    intro st st2 h
    unfold highlightFaceEdges at h
    rcases hidx : m.half_edges[idx]? with _ | he <;> simp only [hidx] at h
    · have := ih st st2 h
      exact ⟨this.1, this.2.1, this.2.2.1, this.2.2.2.1,
        le_trans this.2.2.2.2 (by simp [Nat.add_le_add_iff_left])⟩
    · rcases hnext : m.half_edges[he.next]? with _ | he2 <;>
        simp only [hnext] at h
      · simp at h
      · rcases hmid : highlight_cgar_edge m he.vertex he2.vertex st with
          e | stm <;> simp only [hmid] at h
        · simp at h
        · have h1 := highlight_cgar_edge_inv _ _ _ _ _ hmid
          have h2 := ih stm st2 h
          refine ⟨h2.1.trans h1.1, h2.2.1.trans h1.2.1,
            le_trans h1.2.2.1 h2.2.2.1, ?_, ?_⟩
          · intro e he3
            rcases h2.2.2.2.1 e he3 with h' | h'
            · rcases h1.2.2.2.1 e h' with h'' | h''
              · exact Or.inl h''
              · exact Or.inr h''
            · exact Or.inr (le_trans h1.2.2.1 h')
          · calc st2.cylinders.length ≤ stm.cylinders.length + rest.length :=
                  h2.2.2.2.2
              _ ≤ (st.cylinders.length + 1) + rest.length :=
                  Nat.add_le_add_right h1.2.2.2.2 _
              _ = st.cylinders.length + (idx :: rest).length := by
                  simp [List.length_cons]
                  ring

/-- Same invariant for the full cast-result interpretation. -/
theorem resolveHit_inv (m : CgarMesh3) (cast : CastResult)
    (st st2 : PickerState) (h : resolveHit m cast st = Except.ok st2) :
    st2.presses = st.presses ∧ st2.despawned = st.despawned ∧
      st.nextId ≤ st2.nextId ∧
      (∀ e ∈ st2.cylinders, e ∈ st.cylinders ∨ st.nextId ≤ e) := by
  unfold resolveHit at h
  rcases cast with hit | _
  · rcases hit with ⟨v0, v1, u⟩ | ⟨fid, pt⟩ | v
    · have := highlight_cgar_edge_inv _ _ _ _ _ h
      exact ⟨this.1, this.2.1, this.2.2.1, this.2.2.2.1⟩
    · have := highlightFaceEdges_inv _ _ _ _ h
      exact ⟨this.1, this.2.1, this.2.2.1, this.2.2.2.1⟩
    · simp only [Except.ok.injEq] at h
      subst h
      exact ⟨rfl, rfl, le_refl _, fun e he2 => Or.inl he2⟩
  · simp only [Except.ok.injEq] at h
    subst h
    exact ⟨rfl, rfl, le_refl _, fun e he2 => Or.inl he2⟩

/-- The click path of `handleRelease`: when a press record exists, the
move stays within the deadzone, the target carries a mesh, and camera,
window and ray all resolve, the release reduces to clearing the
highlights (press records removed) and interpreting the cast result. -/
theorem handleRelease_click (env : ClickEnv) (st : PickerState)
    (ev : ReleaseEvent) (m : CgarMesh3) (sp : V2 ℚ)
    (hpress : List.lookup ev.pointer_id st.presses.pos = some sp)
    (hdead : ¬((ev.position - sp).length_squared > deadzone_sq))
    (hmesh : env.mesh ev.target = some m)
    (hcam : env.cameraOk = true) (hwin : env.windowOk = true)
    (hray : env.rayOk = true) :
    handleRelease env st ev =
      resolveHit m env.cast (clear_edge_highlights
        { st with presses :=
            ⟨mapRemove ev.pointer_id st.presses.pos,
             mapRemove ev.pointer_id st.presses.target⟩ }) := by
  unfold handleRelease
  simp [hpress, hmesh, hcam, hwin, hray, lookup_mapRemove, hdead]
  intro hcontra
  exact absurd hcontra (by simpa [V2.sub_pair] using hdead)

/-- When every half-edge index of the list is resolvable, the face arm
succeeds and adds exactly one highlight per index. -/
theorem highlightFaceEdges_count (m : CgarMesh3) (idxs : List Nat) :
    (∀ idx ∈ idxs, faceEdgeResolvable m idx = true) →
    ∀ st, ∃ st', highlightFaceEdges m idxs st = Except.ok st' ∧
      st'.cylinders.length = st.cylinders.length + idxs.length := by
  induction idxs with
  | nil =>
    intro _ st
    exact ⟨st, rfl, by simp⟩
  | cons idx rest ih =>
    intro hres st
    have h0 := hres idx (by simp)
    unfold faceEdgeResolvable at h0
    rcases hidx : m.half_edges[idx]? with _ | he <;> simp only [hidx] at h0
    · exact absurd h0 (by simp)
    · rcases hnext : m.half_edges[he.next]? with _ | he2 <;>
        simp only [hnext] at h0
      · exact absurd h0 (by simp)
      · rw [Bool.and_eq_true, Bool.and_eq_true] at h0
        obtain ⟨⟨hE, hv0⟩, hv1⟩ := h0
        rcases Option.isSome_iff_exists.mp hE with ⟨heE, hEe⟩
        have hhl := highlight_cgar_edge_some m he.vertex he2.vertex st heE
          hEe hv0 hv1
        obtain ⟨st', hok, hlen⟩ :=
          ih (fun i hi => hres i (by simp [hi]))
            ⟨st.presses, st.cylinders ++ [st.nextId], st.nextId + 1,
              st.despawned⟩
        refine ⟨st', ?_, ?_⟩
        · unfold highlightFaceEdges
          simp only [hidx, hnext, hhl]
          exact hok
        · rw [hlen]
          simp [List.length_append]
          omega

/-- The click path when camera, window, or ray fails to resolve: the
release still clears the highlights and then does nothing more. -/
theorem handleRelease_click_failure (env : ClickEnv) (st : PickerState)
    (ev : ReleaseEvent) (m : CgarMesh3) (sp : V2 ℚ)
    (hpress : List.lookup ev.pointer_id st.presses.pos = some sp)
    (hdead : ¬((ev.position - sp).length_squared > deadzone_sq))
    (hmesh : env.mesh ev.target = some m)
    (hfail : env.cameraOk = false ∨ env.windowOk = false ∨
      env.rayOk = false) :
    handleRelease env st ev =
      Except.ok (clear_edge_highlights
        { st with presses :=
            ⟨mapRemove ev.pointer_id st.presses.pos,
             mapRemove ev.pointer_id st.presses.target⟩ }) := by
  unfold handleRelease
  rcases hfail with h | h | h <;>
    · simp [hpress, hmesh, h, lookup_mapRemove, hdead]
      intro hcontra
      exact absurd hcontra (by simpa [V2.sub_pair] using hdead)

end PickerLemmas

/-! ## Claim theorems for the camera controller -/

/-- Claim C4: for every tick of `camera_controller` and every sequence
of scroll-wheel and keyboard zoom inputs across ticks, the orbit radius
stays within `[0.1, 20.0]` inclusive after each tick (starting from an
in-range radius, as at spawn); any tick with a zoom input lands the
radius in range no matter its prior value (each mutation is immediately
clamped); and the orthographic projection scale stays within its own
clamp range `[0.1, 10.0]`. -/
theorem claim_C4_radius_always_clamped {α : Type} [LinearOrderedField α]
    (ops : CamOps α) (lookAt : V3 α → V3 α → Basis3 α)
    (inps : List (TickInput α)) (t : CamTransform α) (orbit : OrbitState α)
    (scale : α) (scrolls : List α)
    (horb : 1 / 10 ≤ orbit.radius ∧ orbit.radius ≤ 20)
    (hsc : 1 / 10 ≤ scale ∧ scale ≤ 10) :
    (1 / 10 ≤ (runTicks ops lookAt inps (t, orbit)).2.radius ∧
      (runTicks ops lookAt inps (t, orbit)).2.radius ≤ 20) ∧
    (1 / 10 ≤ runOrthoTicks scrolls scale ∧
      runOrthoTicks scrolls scale ≤ 10) ∧
    (∀ (inp : TickInput α) (t2 : CamTransform α) (orbit2 : OrbitState α),
      (inp.wheel.foldl (· + ·) 0 ≠ 0 ∨ inp.keyEqual = true ∨
        inp.keyMinus = true) →
      1 / 10 ≤ (cameraTick ops lookAt inp t2 orbit2).2.radius ∧
        (cameraTick ops lookAt inp t2 orbit2).2.radius ≤ 20) := by
  refine ⟨runTicks_radius_mem ops lookAt inps t orbit horb,
    runOrthoTicks_mem scrolls scale hsc, ?_⟩
  intro inp t2 orbit2 h
  rw [cameraTick_radius]
  exact zoomStep_mem_of_input _ _ _ _ h

/-- Witness for C4 at concrete rational inputs: two ticks (a scroll of
1 with `Equal` held, then a keyboard-only tick) from the spawn state,
and an orthographic scale of 1 through scrolls `[2, 0, -3]`. -/
theorem claim_C4_witness :
    (1 / 10 ≤ (runTicks ratCamOps ratLookAt
        [⟨false, false, [], [1], true, false⟩,
         ⟨true, false, [⟨1, 2⟩, ⟨0, 1⟩], [], false, true⟩]
        (ratCamTransform, ratOrbitInit)).2.radius ∧
      (runTicks ratCamOps ratLookAt
        [⟨false, false, [], [1], true, false⟩,
         ⟨true, false, [⟨1, 2⟩, ⟨0, 1⟩], [], false, true⟩]
        (ratCamTransform, ratOrbitInit)).2.radius ≤ 20) ∧
    (1 / 10 ≤ runOrthoTicks [(2 : ℚ), 0, -3] 1 ∧
      runOrthoTicks [(2 : ℚ), 0, -3] 1 ≤ 10) :=
  ⟨(claim_C4_radius_always_clamped ratCamOps ratLookAt
      [⟨false, false, [], [1], true, false⟩,
       ⟨true, false, [⟨1, 2⟩, ⟨0, 1⟩], [], false, true⟩]
      ratCamTransform ratOrbitInit 1 [(2 : ℚ), 0, -3]
      (by norm_num [ratOrbitInit]) (by norm_num)).1,
   (claim_C4_radius_always_clamped ratCamOps ratLookAt
      [⟨false, false, [], [1], true, false⟩,
       ⟨true, false, [⟨1, 2⟩, ⟨0, 1⟩], [], false, true⟩]
      ratCamTransform ratOrbitInit 1 [(2 : ℚ), 0, -3]
      (by norm_num [ratOrbitInit]) (by norm_num)).2.1⟩

/-- Claim C6, corrected: in each tick, if the accumulated scroll is
non-zero the radius is updated by `radius -= scroll * radius * 0.05`
and clamped; independently of the scroll, while `Equal` is held the
radius decreases by the fixed step `0.1` and is clamped, and while
`Minus` is held it increases by `0.1` and is clamped (keyboard zoom is
a separate `if`, not an `else if`) — so scroll zoom and keyboard zoom
can both apply in the same tick, keyboard after scroll. -/
theorem claim_C6_zoom_application {α : Type} [LinearOrderedField α]
    (ops : CamOps α) (lookAt : V3 α → V3 α → Basis3 α)
    (inp : TickInput α) (t : CamTransform α) (orbit : OrbitState α) :
    (inp.wheel.foldl (· + ·) 0 ≠ 0 → inp.keyEqual = false →
      inp.keyMinus = false →
      (cameraTick ops lookAt inp t orbit).2.radius =
        rclamp (orbit.radius - (inp.wheel.foldl (· + ·) 0) * orbit.radius *
          (5 / 100)) (1 / 10) 20) ∧
    (inp.wheel.foldl (· + ·) 0 = 0 → inp.keyEqual = true →
      inp.keyMinus = false →
      (cameraTick ops lookAt inp t orbit).2.radius =
        rclamp (orbit.radius - 1 / 10) (1 / 10) 20) ∧
    (inp.wheel.foldl (· + ·) 0 = 0 → inp.keyEqual = false →
      inp.keyMinus = true →
      (cameraTick ops lookAt inp t orbit).2.radius =
        rclamp (orbit.radius + 1 / 10) (1 / 10) 20) ∧
    (inp.wheel.foldl (· + ·) 0 ≠ 0 → inp.keyEqual = true →
      inp.keyMinus = false →
      (cameraTick ops lookAt inp t orbit).2.radius =
        rclamp (rclamp (orbit.radius - (inp.wheel.foldl (· + ·) 0) *
          orbit.radius * (5 / 100)) (1 / 10) 20 - 1 / 10) (1 / 10) 20) := by
  refine ⟨?_, ?_, ?_, ?_⟩ <;> intro h1 h2 h3 <;> rw [cameraTick_radius] <;>
    simp [zoomStep, scrollZoom, keyEqualZoom, keyMinusZoom, h1, h2, h3,
      abs_pos]

/-- Witness for the corrected C6: a pure-scroll tick (scroll 2, no
keys) from the spawn state lands on the scroll-zoom formula,
`5 - 2 * 5 * 0.05 = 4.5`. -/
theorem claim_C6_witness :
    (cameraTick ratCamOps ratLookAt ⟨false, false, [], [2], false, false⟩
        ratCamTransform ratOrbitInit).2.radius = 9 / 2 := by
  have h := (claim_C6_zoom_application ratCamOps ratLookAt
    ⟨false, false, [], [2], false, false⟩ ratCamTransform ratOrbitInit).1
    (by norm_num) rfl rfl
  rw [h]
  norm_num [ratOrbitInit, rclamp, min_def, max_def]

/-- Counterexample to C6 as stated: with scroll `1` accumulated and
`Equal` held in the same tick, the code applies both zooms
(`5 → 4.75 → 4.65`), not only the scroll zoom (`4.75`) that the claim
mandates when scroll is non-zero. -/
theorem claim_C6_counterexample :
    (cameraTick ratCamOps ratLookAt ⟨false, false, [], [1], true, false⟩
        ratCamTransform ratOrbitInit).2.radius = 93 / 20 ∧
      (cameraTick ratCamOps ratLookAt ⟨false, false, [], [1], true, false⟩
        ratCamTransform ratOrbitInit).2.radius ≠
        rclamp ((5 : ℚ) - 1 * 5 * (5 / 100)) (1 / 10) 20 := by
  rw [cameraTick_radius]
  norm_num [ratOrbitInit, zoomStep, scrollZoom, keyEqualZoom, keyMinusZoom,
    rclamp, abs_pos, min_def, max_def]

/-- Claim C7: the radius re-normalization at the end of a
state-changing tick re-derives
`translation = focus + normalize(translation - focus) * radius`, so the
distance from the re-derived position to the focus is exactly the orbit
radius (in exact arithmetic; the source's guard against drift). -/
theorem claim_C7_renorm_distance (translation focus : V3 ℝ) (radius : ℝ)
    (hne : translation ≠ focus) (hr : 0 ≤ radius) :
    norm3With Real.sqrt
      (renormTranslation Real.sqrt translation focus radius - focus) =
      radius := by
  unfold renormTranslation
  rw [v3_add_sub_cancel]
  rw [norm3With_real_smul]
  rw [norm3With_real_normalize _ (v3_sub_ne_zero hne)]
  rw [abs_of_nonneg hr]
  ring

/-- Witness for C7: camera at `(0, 3, 4)`, focus at the origin, radius
2 — the re-derived position is at distance exactly 2 from the focus. -/
theorem claim_C7_witness :
    norm3With Real.sqrt
      (renormTranslation Real.sqrt ⟨0, 3, 4⟩ ⟨0, 0, 0⟩ 2 -
        (⟨0, 0, 0⟩ : V3 ℝ)) = 2 :=
  claim_C7_renorm_distance ⟨0, 3, 4⟩ ⟨0, 0, 0⟩ 2
    (fun h => by
      have h3 : (3 : ℝ) = 0 := congrArg V3.y h
      norm_num at h3)
    (by norm_num)

/-- Claim C8: for every rotation input of any magnitude, the polar
angle `phi` used to reconstruct the camera offset satisfies
`0.01 ≤ phi ≤ π - 0.01`; in particular `phi` never equals `0` or `π`,
so the reconstructed position never crosses the poles. -/
theorem claim_C8_phi_clamped (offsetY radius dy : ℝ) :
    1 / 100 ≤ rotationPhi realCamOps offsetY radius dy ∧
      rotationPhi realCamOps offsetY radius dy ≤ Real.pi - 1 / 100 ∧
      rotationPhi realCamOps offsetY radius dy ≠ 0 ∧
      rotationPhi realCamOps offsetY radius dy ≠ Real.pi := by
  have hpi : (1 / 100 : ℝ) ≤ Real.pi - 1 / 100 := by
    nlinarith [Real.pi_gt_three]
  have hlo : 1 / 100 ≤ rotationPhi realCamOps offsetY radius dy :=
    le_rclamp _ _ _ hpi
  have hhi : rotationPhi realCamOps offsetY radius dy ≤ Real.pi - 1 / 100 :=
    rclamp_le _ _ _
  refine ⟨hlo, hhi, ?_, ?_⟩
  · intro h0
    rw [h0] at hlo
    norm_num at hlo
  · intro hp
    rw [hp] at hhi
    nlinarith [Real.pi_gt_three]

/-- Claim C9: in exact arithmetic the pan-step position update yields
`translation + panOffset` for every translation, focus and pan offset;
equivalently the camera's offset from the focus is unchanged by the pan
step (before re-orientation and re-normalization). -/
theorem claim_C9_pan_preserves_offset
    (translation focus panOffset : V3 ℝ) :
    (panApply translation focus panOffset).1 = translation + panOffset ∧
      (panApply translation focus panOffset).1 -
        (panApply translation focus panOffset).2 = translation - focus := by
  constructor <;>
    · rw [V3.eq_iff]
      refine ⟨?_, ?_, ?_⟩ <;> simp [panApply] <;> try ring

/-! ## Claim theorems for the picking pipeline -/

/-- Claim C1, failing input: the source removes the press-target record
(`src/mesh/edge.rs` line 100) before comparing it with the release
target (lines 105-109), so the comparison always passes.  A press on
entity 5 and a release on entity 7 at the same position — condition (c)
of the claim violated, conditions (a) and (b) satisfied — is classified
as a Click and picking proceeds: the stale highlight 99 is despawned
and the set emptied, where the claim requires a Drag with no picking
action. -/
theorem claim_C1_target_check_is_dead :
    handle_mesh_click envMiss [⟨0, ⟨0, 0⟩, 5⟩] [⟨0, ⟨0, 0⟩, 7⟩]
        stWithHighlight = Except.ok stMissResult := by
  norm_num [handle_mesh_click, handlePress, handleRelease, mapInsert,
    mapRemove, List.filter, List.lookup, List.foldlM, clear_edge_highlights,
    resolveHit, envMiss, meshAt7, stWithHighlight, stMissResult, deadzone_sq,
    click_deadzone, V2.length_squared]

/-- Claim C2 (spec-modelled): with the edit toggle armed and an edge
hit at parameter `u`, the dispatch collapses `v1` onto `v0` when
`u < 0.5` and `v0` onto `v1` when `u > 0.5` — the two sides of the
midpoint produce opposite collapse directions, and a collapse is
submitted instead of a highlight. -/
theorem claim_C2_collapse_direction (v0 v1 : Nat) (u : ℚ) :
    (u < 1 / 2 → editDispatch true v0 v1 u = EditAction.collapse v1 v0) ∧
      (u > 1 / 2 → editDispatch true v0 v1 u = EditAction.collapse v0 v1) := by
  unfold editDispatch
  constructor
  · intro h
    rw [if_pos rfl, if_pos h]
  · intro h
    rw [if_pos rfl, if_neg (not_lt_of_gt h)]

/-- Witness for C2 at `u = 0.2` and `u = 0.8`. -/
theorem claim_C2_witness :
    editDispatch true 3 7 (1 / 5) = EditAction.collapse 7 3 ∧
      editDispatch true 3 7 (4 / 5) = EditAction.collapse 3 7 :=
  ⟨(claim_C2_collapse_direction 3 7 (1 / 5)).1 (by norm_num),
   (claim_C2_collapse_direction 3 7 (4 / 5)).2 (by norm_num)⟩

/-- Claim C3: on every Click resolved against a mesh-carrying entity,
the whole previous highlight set is despawned, none of it survives
into the new set, and on a Miss or a camera, window, or
ray-construction failure the resulting set is empty — no path leaves a
mix of stale and fresh highlights. -/
theorem claim_C3_atomic_clear (env : ClickEnv) (st : PickerState)
    (ev : ReleaseEvent) (m : CgarMesh3) (sp : V2 ℚ) (st' : PickerState)
    (hpress : List.lookup ev.pointer_id st.presses.pos = some sp)
    (hdead : ¬((ev.position - sp).length_squared > deadzone_sq))
    (hmesh : env.mesh ev.target = some m)
    (hok : handleRelease env st ev = Except.ok st') :
    (∀ e ∈ st.cylinders, e ∈ st'.despawned) ∧
      (∀ e ∈ st.cylinders, e < st.nextId → e ∉ st'.cylinders) ∧
      ((env.cameraOk = false ∨ env.windowOk = false ∨ env.rayOk = false ∨
        env.cast = CastResult.Miss) → st'.cylinders = []) := by
  by_cases hfull : env.cameraOk = true ∧ env.windowOk = true ∧
    env.rayOk = true
  · obtain ⟨hcam, hwin, hray⟩ := hfull
    rw [handleRelease_click env st ev m sp hpress hdead hmesh hcam hwin hray]
      at hok
    have hinv := resolveHit_inv m env.cast _ st' hok
    refine ⟨?_, ?_, ?_⟩
    · intro e he
      rw [hinv.2.1]
      simp [clear_edge_highlights]
      exact Or.inr he
    · intro e he hlt hmem
      rcases hinv.2.2.2 e hmem with h' | h'
      · simp [clear_edge_highlights] at h'
      · have hn : st.nextId ≤ e := h'
        exact absurd hlt (not_lt.mpr hn)
    · intro hdisj
      rcases hdisj with h | h | h | h
      · rw [hcam] at h
        cases h
      · rw [hwin] at h
        cases h
      · rw [hray] at h
        cases h
      · rw [h] at hok
        simp only [resolveHit] at hok
        simp only [Except.ok.injEq] at hok
        rw [← hok]
        rfl
  · have hfail : env.cameraOk = false ∨ env.windowOk = false ∨
        env.rayOk = false := by
      rcases hcs : env.cameraOk <;> rcases hws : env.windowOk <;>
        rcases hrs : env.rayOk <;> simp_all
    rw [handleRelease_click_failure env st ev m sp hpress hdead hmesh hfail]
      at hok
    simp only [Except.ok.injEq] at hok
    subst hok
    refine ⟨?_, ?_, ?_⟩
    · intro e he
      simp [clear_edge_highlights]
      exact Or.inr he
    · intro e _ _ hmem
      simp [clear_edge_highlights] at hmem
    · intro _
      rfl

/-- Witness for C3: a Miss click on entity 7 from the pressed state
with stale highlight 99 — the stale highlight is despawned and the
resulting set is empty. -/
theorem claim_C3_witness :
    ((99 : Entity) ∈ stMissResult.despawned) ∧ stMissResult.cylinders = [] := by
  have h := claim_C3_atomic_clear envMiss stPressed ⟨0, ⟨1, 1⟩, 7⟩ triMesh
    ⟨0, 0⟩ stMissResult
    (by norm_num [stPressed, List.lookup])
    (by norm_num [V2.sub_pair, V2.length_squared, deadzone_sq, click_deadzone])
    rfl
    (by norm_num [handleRelease, stPressed, stMissResult, mapRemove,
      List.filter, List.lookup, clear_edge_highlights, resolveHit, envMiss,
      meshAt7, deadzone_sq, click_deadzone, V2.length_squared])
  exact ⟨h.1 99 (by simp [stPressed]), h.2.2 (Or.inr (Or.inr (Or.inr rfl)))⟩

/-- Claim C5: after a qualifying Click, the highlight count equals the
number of boundary edges of the hit face on a face hit (each boundary
edge resolvable), exactly 1 on an edge hit, and 0 on a miss. -/
theorem claim_C5_highlight_counts (env : ClickEnv) (st : PickerState)
    (ev : ReleaseEvent) (m : CgarMesh3) (sp : V2 ℚ)
    (hpress : List.lookup ev.pointer_id st.presses.pos = some sp)
    (hdead : ¬((ev.position - sp).length_squared > deadzone_sq))
    (hmesh : env.mesh ev.target = some m)
    (hcam : env.cameraOk = true) (hwin : env.windowOk = true)
    (hray : env.rayOk = true) :
    (∀ fid pt d, env.cast = CastResult.Hit (HitKind.Face fid pt) d →
      (∀ idx ∈ m.face_half_edges fid, faceEdgeResolvable m idx = true) →
      ∀ st', handleRelease env st ev = Except.ok st' →
        st'.cylinders.length = (m.face_half_edges fid).length) ∧
    (∀ v0 v1 u d, env.cast = CastResult.Hit (HitKind.Edge v0 v1 u) d →
      m.edge_half_edges v0 v1 ≠ none → (m.vertices[v0]?).isSome →
      (m.vertices[v1]?).isSome →
      ∀ st', handleRelease env st ev = Except.ok st' →
        st'.cylinders.length = 1) ∧
    (env.cast = CastResult.Miss →
      ∀ st', handleRelease env st ev = Except.ok st' →
        st'.cylinders.length = 0) := by
  have hre := handleRelease_click env st ev m sp hpress hdead hmesh hcam
    hwin hray
  refine ⟨?_, ?_, ?_⟩
  · intro fid pt d hcast hres st' hok
    rw [hre, hcast] at hok
    simp only [resolveHit] at hok
    obtain ⟨stx, hokx, hlenx⟩ := highlightFaceEdges_count m
      (m.face_half_edges fid) hres (clear_edge_highlights
        { st with presses :=
            ⟨mapRemove ev.pointer_id st.presses.pos,
             mapRemove ev.pointer_id st.presses.target⟩ })
    rw [hokx] at hok
    simp only [Except.ok.injEq] at hok
    subst hok
    rw [hlenx]
    simp [clear_edge_highlights]
  · intro v0 v1 u d hcast hE hv0 hv1 st' hok
    rw [hre, hcast] at hok
    simp only [resolveHit] at hok
    rcases hEx : m.edge_half_edges v0 v1 with _ | he
    · exact absurd hEx hE
    · rw [highlight_cgar_edge_some m v0 v1 _ he hEx hv0 hv1] at hok
      simp only [Except.ok.injEq] at hok
      subst hok
      rfl
  · intro hcast st' hok
    rw [hre, hcast] at hok
    simp only [resolveHit] at hok
    simp only [Except.ok.injEq] at hok
    subst hok
    rfl

/-- Witness for C5: a face-0 click on the triangle mesh from the
pressed state yields three highlights — one per boundary edge. -/
theorem claim_C5_witness :
    stFaceResult.cylinders.length = (triMesh.face_half_edges 0).length :=
  (claim_C5_highlight_counts envFace stPressed ⟨0, ⟨1, 1⟩, 7⟩ triMesh ⟨0, 0⟩
    (by norm_num [stPressed, List.lookup])
    (by norm_num [V2.sub_pair, V2.length_squared, deadzone_sq, click_deadzone])
    rfl rfl rfl rfl).1 0 ⟨0, 0, 0⟩ 1 rfl (by decide) stFaceResult
    (by norm_num [handleRelease, stPressed, stFaceResult, mapRemove,
      List.filter, List.lookup, clear_edge_highlights, resolveHit, envFace,
      meshAt7, deadzone_sq, click_deadzone, V2.length_squared,
      highlightFaceEdges, highlight_cgar_edge, create_edge_cylinder, triMesh])

/-- Claim C10: `highlight_cgar_edge` leaves the highlight set unchanged
when the `edge_half_edges` lookup fails, appends exactly one fresh
entity when it succeeds (with both vertex indices in bounds), and
consequently a face hit produces at most — possibly fewer than — as
many highlights as the face has boundary edges. -/
theorem claim_C10_highlight_growth (m : CgarMesh3) (v0 v1 : Nat)
    (st : PickerState) :
    (m.edge_half_edges v0 v1 = none →
      highlight_cgar_edge m v0 v1 st = Except.ok st) ∧
    (∀ he, m.edge_half_edges v0 v1 = some he →
      (m.vertices[v0]?).isSome → (m.vertices[v1]?).isSome →
      highlight_cgar_edge m v0 v1 st =
        Except.ok ⟨st.presses, st.cylinders ++ [st.nextId], st.nextId + 1,
          st.despawned⟩) ∧
    (∀ fid st', highlightFaceEdges m (m.face_half_edges fid) st =
        Except.ok st' →
      st'.cylinders.length ≤
        st.cylinders.length + (m.face_half_edges fid).length) :=
  ⟨fun h => highlight_cgar_edge_none m v0 v1 st h,
   fun he h h0 h1 => highlight_cgar_edge_some m v0 v1 st he h h0 h1,
   fun _fid st' h => (highlightFaceEdges_inv m _ st st' h).2.2.2.2⟩

/-- Witness for C10: on the broken mesh every lookup fails and the
state is unchanged; on the triangle mesh the edge `(0, 1)` lookup
succeeds and exactly highlight 100 is appended; the face arm on the
broken mesh stays within the boundary-edge bound. -/
theorem claim_C10_witness :
    highlight_cgar_edge brokenMesh 0 1 stWithHighlight =
        Except.ok stWithHighlight ∧
      highlight_cgar_edge triMesh 0 1 stWithHighlight =
        Except.ok ⟨⟨[], []⟩, [99, 100], 101, []⟩ ∧
      stWithHighlight.cylinders.length ≤
        stWithHighlight.cylinders.length +
          (brokenMesh.face_half_edges 0).length :=
  ⟨(claim_C10_highlight_growth brokenMesh 0 1 stWithHighlight).1 rfl,
   (claim_C10_highlight_growth triMesh 0 1 stWithHighlight).2.1 0 rfl rfl rfl,
   (claim_C10_highlight_growth brokenMesh 0 1 stWithHighlight).2.2 0
     stWithHighlight (by rfl)⟩

end CgarViewer
